import Mathlib

/-!
Verification of the chronogrog production-schedule engine.

This development is a shallow embedding of the Rust sources
(`src/util.rs`, `src/resources.rs`, `src/phases.rs`, `src/recipes.rs`,
`src/lib.rs`) into Lean 4.

Modelling conventions:
* `chrono::NaiveDateTime` is modelled as an `Int` Unix timestamp in seconds,
  and `chrono::Duration` as an `Int` number of seconds
  (`Duration::days n = n * 86400`, `Duration::weeks n = n * 7 * 86400`,
  `Duration::hours n = n * 3600`, `Duration::seconds n = n`).
* Rust code that can panic is modelled with `Option`/`Except Unit`: a
  `none`/`.error ()` result stands for a panic.
* `chrono_period::NaivePeriod` and the chrono date parsing/formatting
  routines live in external crates, not in this repository; they are
  modelled from the specification (see the doc comments on those
  definitions).
-/

namespace Chronogrog

/-! ## util.rs: duration parsing -/

/-- Result of `util::convert_string_to_duration`.  The Rust function returns
`Option<Duration>` but can also panic on `unwrap()`; `ok d` models
`Some(d)` (seconds), `noResult` models `None`, and `fatal` models a panic. -/
inductive DurationResult where
  | ok (seconds : Int)
  | noResult
  | fatal
deriving DecidableEq, Repr

/-- Rust `str::parse::<i64>` on a character list: an optional sign followed by
a nonempty ASCII digit run, with the value required to fit in a signed
64-bit integer; `none` models a parse error. -/
def parseI64 (s : List Char) : Option Int :=
  let signDigits : Int × List Char :=
    match s with
    | '+' :: rest => (1, rest)
    | '-' :: rest => (-1, rest)
    | _ => (1, s)
  let sign := signDigits.1
  let digits := signDigits.2
  if digits = [] ∨ ¬ digits.all Char.isDigit then none
  else
    let v : Nat := digits.foldl (fun acc c => acc * 10 + (c.toNat - '0'.toNat)) 0
    let n : Int := sign * v
    if -(2 ^ 63) ≤ n ∧ n ≤ 2 ^ 63 - 1 then some n else none

/-- The final unit match of `util::convert_string_to_duration`: `m` is a
30-day month, `w` a week, `d` a day, `h` an hour, and any other unit letter
yields `None`. -/
def convert_unit (x : Char) (digits : Int) : DurationResult :=
  match x with
  | 'm' => .ok (digits * 30 * 86400)
  | 'w' => .ok (digits * 7 * 86400)
  | 'd' => .ok (digits * 86400)
  | 'h' => .ok (digits * 3600)
  | _ => .noResult

/-- Embedding of `util::convert_string_to_duration`.  The Rust code inspects
the last character: if it is an ASCII digit the unit is implicitly `'d'`
and the whole string is the digit run, otherwise the last character is
popped and used as the unit.  The digit run is then parsed with
`parse::<i64>().unwrap()` (a parse failure panics), and finally the unit is
matched with `convert_unit`. -/
def convert_string_to_duration (duration_string : String) : DurationResult :=
  let chars := duration_string.data
  let idAndChars : Option Char × List Char :=
    match chars.getLast? with
    | none => (none, chars)
    | some last_character =>
        if last_character.isDigit then (some 'd', chars)
        else (some last_character, chars.dropLast)
  match idAndChars with
  | (none, _) => .noResult
  | (some x, characters) =>
      match parseI64 characters with
      | none => .fatal
      | some digits => convert_unit x digits

example : convert_string_to_duration "6m" = .ok (180 * 86400) := by decide
example : convert_string_to_duration "4w" = .ok (28 * 86400) := by decide
example : convert_string_to_duration "10d" = .ok (10 * 86400) := by decide
example : convert_string_to_duration "1h" = .ok 3600 := by decide
example : convert_string_to_duration "" = .noResult := by decide
example : convert_string_to_duration "25x" = .noResult := by decide
example : convert_string_to_duration "d" = .fatal := by decide
example : convert_string_to_duration "x" = .fatal := by decide

/-! ## resources.rs: intervals, resources and the tracker -/

/-- Modelled from the spec: `NaivePeriod` comes from the external
`chrono_period` crate, which is not part of this repository.  Spec section 4.2:
an interval constructed from `(start, duration)` is the closed range
`[start, start + duration]`.  The field called `end` in the source is named
`stop` here because `end` is a Lean keyword.  Times are second timestamps. -/
structure NaivePeriod where
  start : Int
  stop : Int
deriving DecidableEq, Repr

/-- Modelled from the spec: `NaivePeriod::from_start_duration` builds the
closed interval `[start, start + duration]`. -/
def NaivePeriod.from_start_duration (start duration : Int) : NaivePeriod :=
  ⟨start, start + duration⟩

/-- Modelled from the spec: the duration of a period, `end - start`. -/
def NaivePeriod.duration (p : NaivePeriod) : Int := p.stop - p.start

/-- Modelled from the spec: `NaivePeriod::intersects_with` is true iff the two
closed ranges share at least one instant, including shared boundary
instants. -/
def NaivePeriod.intersects_with (p other : NaivePeriod) : Bool :=
  p.start ≤ other.stop && other.start ≤ p.stop

/-- Two periods do not overlap (the negation of the intersection test). -/
def NaivePeriod.disjoint (p other : NaivePeriod) : Prop :=
  ¬ p.intersects_with other = true

/-- Embedding of `resources::ResourceType`: a closed set of equipment
categories plus an escape-hatch variant carrying the original label. -/
inductive ResourceType where
  | Fermentor
  | Kettle
  | MashTun
  | LauterTun
  | Keg
  | Kegerator
  | GasTank
  | Other (label : String)
deriving DecidableEq, Repr

/-- Embedding of `resources::Resource` (serde-only concerns dropped). -/
structure Resource where
  id : Nat
  name : String
  resource_type : ResourceType
  capacity_str : String
  allocated_periods : List NaivePeriod
deriving DecidableEq, Repr

/-- Embedding of `Resource::new`: a fresh resource has no allocations. -/
def Resource.new (id : Nat) (name : String) (resource_type : ResourceType)
    (capacity_str : String) : Resource :=
  ⟨id, name, resource_type, capacity_str, []⟩

/-- Embedding of `Resource::is_allocated_over_start_duration`: true iff the
period `[start, start + duration]` intersects any allocated period. -/
def Resource.is_allocated_over_start_duration (r : Resource) (start duration : Int) :
    Bool :=
  let intersection_period := NaivePeriod.from_start_duration start duration
  r.allocated_periods.any (fun period => period.intersects_with intersection_period)

/-- Embedding of `Resource::is_allocated_over_period`. -/
def Resource.is_allocated_over_period (r : Resource) (period : NaivePeriod) : Bool :=
  r.is_allocated_over_start_duration period.start period.duration

/-- Embedding of `Resource::allocate_over_start_duration`.  The Rust method
mutates `self` and returns `Option<&Resource>`; here `none` models the
refusal (in which case the Rust code leaves `self` unchanged) and
`some r2` is the updated resource.  The pushed period is re-sorted by start
date, mirroring `sort_by` on `start`. -/
def Resource.allocate_over_start_duration (r : Resource) (start duration : Int) :
    Option Resource :=
  if r.is_allocated_over_start_duration start duration then none
  else
    let allocation_period := NaivePeriod.from_start_duration start duration
    some { r with
           allocated_periods :=
             (r.allocated_periods ++ [allocation_period]).insertionSort
               (fun a b => a.start ≤ b.start) }

/-- Embedding of `Resource::allocate_over_period`. -/
def Resource.allocate_over_period (r : Resource) (period : NaivePeriod) :
    Option Resource :=
  r.allocate_over_start_duration period.start period.duration

/-- The candidate restart dates scanned by
`Resource::get_earliest_free_date_for_period`: allocated periods whose end
does not precede the desired start are kept, each yielding the candidate
`end + 1` second, further filtered to candidates at which a period of the
same duration no longer intersects any allocation. -/
def Resource.free_candidates (r : Resource) (period : NaivePeriod) : List Int :=
  (r.allocated_periods.filter (fun needle =>
      if needle.stop < period.start then false
      else !r.is_allocated_over_start_duration (needle.stop + 1) period.duration)
    ).map (fun needle => needle.stop + 1)

/-- Embedding of `Resource::get_earliest_free_date_for_period`.  The Rust
method ends in `.take(1).next().unwrap()`; `none` models the panic when no
candidate survives the scan. -/
def Resource.get_earliest_free_date_for_period (r : Resource) (period : NaivePeriod) :
    Option Int :=
  if !r.is_allocated_over_start_duration period.start period.duration then
    some period.start
  else
    (r.free_candidates period).head?

/-- Embedding of `resources::ResourceTracker`.  The Rust tracker stores a
`HashMap<usize, Resource>`; it is modelled as an association list whose keys
are unique for every state reachable through `track_resource`. -/
structure ResourceTracker where
  resources : List (Nat × Resource)
deriving DecidableEq, Repr

/-- Embedding of `ResourceTracker::new`. -/
def ResourceTracker.new : ResourceTracker := ⟨[]⟩

/-- Embedding of `ResourceTracker::track_resource`: `HashMap::insert` keyed by
`res.id`, replacing any previously tracked resource with the same id. -/
def ResourceTracker.track_resource (t : ResourceTracker) (res : Resource) :
    ResourceTracker :=
  ⟨(t.resources.filter (fun p => p.1 ≠ res.id)) ++ [(res.id, res)]⟩

/-- Embedding of `ResourceTracker::is_resource_of_type_free_for_period`: an
existential test over resources of the requested type. -/
def ResourceTracker.is_resource_of_type_free_for_period (t : ResourceTracker)
    (resource_type : ResourceType) (period : NaivePeriod) : Bool :=
  (t.resources.filter (fun res => res.2.resource_type = resource_type)).any
    (fun res => !res.2.is_allocated_over_period period)

/-- Embedding of `ResourceTracker::allocate_resource_of_type_for_period`.
The Rust method sorts the hash-map entries by key, takes the first entry of
the requested type that is free for the period, and allocates the period on
it in place.  `.error ()` models the `unwrap()` panic on the (unreachable)
empty-iterator case; the result pairs the returned `Option<&Resource>` with
the updated tracker state. -/
def ResourceTracker.allocate_resource_of_type_for_period (t : ResourceTracker)
    (resource_type : ResourceType) (period : NaivePeriod) :
    Except Unit (Option Resource × ResourceTracker) :=
  if !t.is_resource_of_type_free_for_period resource_type period then
    .ok (none, t)
  else
    let sorted := t.resources.insertionSort (fun a b => a.1 ≤ b.1)
    match sorted.find? (fun hash_entry =>
        hash_entry.2.resource_type = resource_type
          && !hash_entry.2.is_allocated_over_period period) with
    | none => .error ()
    | some resource_tuple =>
        match resource_tuple.2.allocate_over_period period with
        | none => .ok (none, t)
        | some r2 =>
            .ok (some r2,
                 ⟨t.resources.map (fun q =>
                    if q.1 = resource_tuple.1 then (q.1, r2) else q)⟩)

/-! ## Dates (modelled from the spec; chrono is an external crate) -/

/-- Modelled from the spec: conversion of a civil date to a count of days
since 1970-01-01, as performed inside the external chrono crate.  Standard
era-based civil-calendar arithmetic; `Int` division is Euclidean. -/
def daysFromCivil (y : Int) (m d : Nat) : Int :=
  let y2 : Int := if m ≤ 2 then y - 1 else y
  let era : Int := y2 / 400
  let yoe : Int := y2 - era * 400
  let mp : Int := if m ≤ 2 then (m : Int) + 9 else (m : Int) - 3
  let doy : Int := (153 * mp + 2) / 5 + (d : Int) - 1
  let doe : Int := yoe * 365 + yoe / 4 - yoe / 100 + doy
  era * 146097 + doe - 719468

/-- Modelled from the spec: the inverse conversion, days since 1970-01-01 to
a civil `(year, month, day)` triple. -/
def civilFromDays (z : Int) : Int × Nat × Nat :=
  let z2 : Int := z + 719468
  let era : Int := z2 / 146097
  let doe : Int := z2 - era * 146097
  let yoe : Int := (doe - doe / 1460 + doe / 36524 - doe / 146096) / 365
  let y : Int := yoe + era * 400
  let doy : Int := doe - (365 * yoe + yoe / 4 - yoe / 100)
  let mp : Int := (5 * doy + 2) / 153
  let d : Int := doy - (153 * mp + 2) / 5 + 1
  let m : Int := if mp < 10 then mp + 3 else mp - 9
  (if m ≤ 2 then y + 1 else y, m.toNat, d.toNat)

/-- Modelled from the spec: chrono leap-year test. -/
def isLeapYear (y : Int) : Bool :=
  y % 4 = 0 && (y % 100 ≠ 0 || y % 400 = 0)

/-- Modelled from the spec: number of days in a month of a given year. -/
def daysInMonth (y : Int) (m : Nat) : Nat :=
  match m with
  | 1 => 31 | 3 => 31 | 5 => 31 | 7 => 31 | 8 => 31 | 10 => 31 | 12 => 31
  | 4 => 30 | 6 => 30 | 9 => 30 | 11 => 30
  | 2 => if isLeapYear y then 29 else 28
  | _ => 0

/-- Numeric value of a run of ASCII digit characters. -/
def digitsToNat (cs : List Char) : Nat :=
  cs.foldl (fun acc c => acc * 10 + (c.toNat - '0'.toNat)) 0

/-- Modelled from the spec: validity check and timestamp construction for a
civil date-time, as chrono performs when parsing. -/
def mkCivilTimestamp (y : Int) (m d hh mi ss : Nat) : Option Int :=
  if 1 ≤ m ∧ m ≤ 12 ∧ 1 ≤ d ∧ d ≤ daysInMonth y m ∧ hh < 24 ∧ mi < 60 ∧ ss < 60 then
    some (daysFromCivil y m d * 86400 + (hh : Int) * 3600 + (mi : Int) * 60 + (ss : Int))
  else none

/-- Embedding of `util::get_naive_date_time_from_string`.  The chrono parsing
it delegates to is external; it is modelled from the spec, section 6: the
accepted formats are `YYYY-MM-DD HH:MM:SS` and `YYYY-MM-DD` (implying
midnight); anything else fails to parse (`none` models the `ParseError`). -/
def get_naive_date_time_from_string (date_string : String) : Option Int :=
  match date_string.data with
  | [y1, y2, y3, y4, '-', m1, m2, '-', d1, d2] =>
      if [y1, y2, y3, y4, m1, m2, d1, d2].all Char.isDigit then
        mkCivilTimestamp (digitsToNat [y1, y2, y3, y4]) (digitsToNat [m1, m2])
          (digitsToNat [d1, d2]) 0 0 0
      else none
  | [y1, y2, y3, y4, '-', m1, m2, '-', d1, d2, ' ',
     h1, h2, ':', n1, n2, ':', s1, s2] =>
      if [y1, y2, y3, y4, m1, m2, d1, d2, h1, h2, n1, n2, s1, s2].all Char.isDigit then
        mkCivilTimestamp (digitsToNat [y1, y2, y3, y4]) (digitsToNat [m1, m2])
          (digitsToNat [d1, d2]) (digitsToNat [h1, h2]) (digitsToNat [n1, n2])
          (digitsToNat [s1, s2])
      else none
  | _ => none

example : get_naive_date_time_from_string "1970-01-01" = some 0 := by decide
example : get_naive_date_time_from_string "2020-01-01" = some 1577836800 := by decide
example : get_naive_date_time_from_string "2020-01-01 00:00:01" = some 1577836801 := by
  decide
example : get_naive_date_time_from_string "2020-13-01" = none := by decide
example : get_naive_date_time_from_string "hello" = none := by decide

/-! ## phases.rs and recipes.rs: templates, specs and instances -/

/-- Embedding of `phases::ProductionPhaseTemplate`.  The Rust struct has both
a private string field `default_duration` and a method of the same name; the
method is named `default_duration_opt` here. -/
structure ProductionPhaseTemplate where
  description : String
  id : String
  order : Nat
  resources_needed : List ResourceType
  color_hex : String
  default_duration : String
deriving DecidableEq, Repr

/-- Embedding of the `ProductionPhaseTemplate::default_duration` method. -/
def ProductionPhaseTemplate.default_duration_opt (t : ProductionPhaseTemplate) :
    DurationResult :=
  convert_string_to_duration t.default_duration

/-- Embedding of `phases::PhaseInstanceSpec`. -/
structure PhaseInstanceSpec where
  description : String
  template : String
  duration_string : String
deriving DecidableEq, Repr

/-- Embedding of `PhaseInstanceSpec::duration`: an empty duration string is
`None`; otherwise the string is handed to `convert_string_to_duration`. -/
def PhaseInstanceSpec.duration (s : PhaseInstanceSpec) : DurationResult :=
  match s.duration_string.isEmpty with
  | true => .noResult
  | false => convert_string_to_duration s.duration_string

/-- Embedding of `phases::PhaseInstance`. -/
structure PhaseInstance where
  id : Nat
  description : String
  color_hex : String
  duration : Int
  dependencies : List Nat
  start_date : Int
deriving DecidableEq, Repr

/-- Embedding of `PhaseInstance::new`: dependencies start empty. -/
def PhaseInstance.new (id : Nat) (description color_hex : String)
    (duration start_date : Int) : PhaseInstance :=
  ⟨id, description, color_hex, duration, [], start_date⟩

/-- Embedding of `PhaseInstance::add_dependency`: appends the dependency if
absent, then re-sorts the list ascending. -/
def PhaseInstance.add_dependency (p : PhaseInstance) (dep : Nat) : PhaseInstance :=
  if p.dependencies.any (fun d => d = dep) then p
  else { p with
         dependencies := (p.dependencies ++ [dep]).insertionSort (fun a b => a ≤ b) }

/-- Embedding of `recipes::RecipeSpec`. -/
structure RecipeSpec where
  name : String
  color_hex : String
  phase_specs : List PhaseInstanceSpec
  start_string : Option String
deriving DecidableEq, Repr

/-- Embedding of `RecipeSpec::start_date`: parses the explicit start string
when present, and otherwise returns the Unix epoch (1970-01-01T00:00:00,
timestamp 0).  `none` models the `ParseError`. -/
def RecipeSpec.start_date (s : RecipeSpec) : Option Int :=
  match s.start_string with
  | some x => get_naive_date_time_from_string x
  | none => some 0

/-- Embedding of `recipes::Recipe`. -/
structure Recipe where
  id : Nat
  name : String
  color : String
  phases : List PhaseInstance
  start_date : Int
deriving DecidableEq, Repr

/-! ## lib.rs: the production schedule and graph reconstruction -/

/-- Embedding of `lib::ProductionTimeline`. -/
structure ProductionTimeline where
  configuration : String
  start : String
deriving DecidableEq, Repr

/-- Embedding of `ProductionTimeline::start_date`. -/
def ProductionTimeline.start_date (t : ProductionTimeline) : Option Int :=
  get_naive_date_time_from_string t.start

/-- Embedding of `ProductionSchedule::get_phase_by_id`, as a function of the
template list: the first template whose id matches. -/
def get_phase_by_id (phase_templates : List ProductionPhaseTemplate) (id : String) :
    Option ProductionPhaseTemplate :=
  phase_templates.find? (fun next_phase => next_phase.id = id)

/-- Embedding of `ProductionSchedule::get_next_id`: the counter is bumped
before the new value is handed out, so with `last_id_used` initialised to 0
the first assigned id is 1. -/
def get_next_id (last_id_used : Nat) : Nat := last_id_used + 1

/-- View of a `DurationResult` as the Rust `Option<Duration>` inside the
`Except` panic monad: `fatal` propagates as a panic. -/
def DurationResult.toExceptOpt : DurationResult → Except Unit (Option Int)
  | .ok d => .ok (some d)
  | .noResult => .ok none
  | .fatal => .error ()

/-- The template fallback of the duration resolution in
`ProductionSchedule::rebuild_phases_from_specs`: look the referenced
template up (`get_phase_by_id(..).unwrap()`, an unknown id panics) and take
its default duration (whose own conversion may panic). -/
def lookup_default_duration (phase_templates : List ProductionPhaseTemplate)
    (next_spec : PhaseInstanceSpec) : Except Unit (Option Int) :=
  match get_phase_by_id phase_templates next_spec.template with
  | none => Except.error ()
  | some template => template.default_duration_opt.toExceptOpt

/-- The description resolution in
`ProductionSchedule::rebuild_phases_from_specs`: the spec's description if
non-empty, else the referenced template's description
(`get_phase_by_id(..).unwrap()`, an unknown id panics). -/
def resolve_description (phase_templates : List ProductionPhaseTemplate)
    (next_spec : PhaseInstanceSpec) : Except Unit String :=
  match next_spec.description.isEmpty with
  | true =>
      match get_phase_by_id phase_templates next_spec.template with
      | none => Except.error ()
      | some template => pure template.description
  | false => pure next_spec.description

/-- The duration-resolution rule applied to one phase spec by
`ProductionSchedule::rebuild_phases_from_specs`: the explicit override if
present, else the referenced template's default (an unknown template id
panics here), else one day (86400 seconds). -/
def resolved_duration (phase_templates : List ProductionPhaseTemplate)
    (next_spec : PhaseInstanceSpec) : Except Unit Int := do
  let dur0 ← next_spec.duration.toExceptOpt
  let dur ← match dur0 with
    | some x => pure (some x)
    | none => lookup_default_duration phase_templates next_spec
  pure (match dur with
        | some x => x
        | none => 86400)

/-- Embedding of the forward pass of
`ProductionSchedule::rebuild_phases_from_specs`: walk the phase specs in
order, draw the next id, resolve duration and description (an unknown
template id panics exactly when the template is consulted), and advance the
running start-date cursor.  Returns the built phases and the final counter
value. -/
def build_phases_forward (phase_templates : List ProductionPhaseTemplate)
    (color_hex : String) :
    List PhaseInstanceSpec → Nat → Int → Except Unit (List PhaseInstance × Nat)
  | [], counter, _ => .ok ([], counter)
  | next_spec :: rest, counter, next_start_date => do
      let id := get_next_id counter
      let dur0 ← next_spec.duration.toExceptOpt
      let dur ← match dur0 with
        | some x => pure (some x)
        | none => lookup_default_duration phase_templates next_spec
      let description ← resolve_description phase_templates next_spec
      let duration : Int := match dur with
        | some x => x
        | none => 86400
      let phase := PhaseInstance.new id description color_hex duration next_start_date
      let (phases, counter2) ←
        build_phases_forward phase_templates color_hex rest id
          (next_start_date + duration)
      pure (phase :: phases, counter2)

/-- Embedding of the reverse pass of
`ProductionSchedule::rebuild_phases_from_specs`: walk the phases in reverse,
adding the previously seen id (when positive) as a dependency. -/
def attach_deps_rev : List PhaseInstance → Nat → List PhaseInstance
  | [], _ => []
  | next_phase :: rest, prev_phase_id =>
      let phase :=
        if prev_phase_id > 0 then next_phase.add_dependency prev_phase_id
        else next_phase
      phase :: attach_deps_rev rest phase.id

/-- Embedding of `ProductionSchedule::rebuild_phases_from_specs`: the start
cursor is `recipe_spec.start_date().unwrap()` (a parse failure panics), then
the forward pass builds dated phases and the reverse pass links
dependencies. -/
def rebuild_phases_from_specs (phase_templates : List ProductionPhaseTemplate)
    (recipe_spec : RecipeSpec) (counter : Nat) :
    Except Unit (List PhaseInstance × Nat) := do
  let next_start_date ← match recipe_spec.start_date with
    | some x => pure x
    | none => Except.error ()
  let (phases, counter2) ←
    build_phases_forward phase_templates recipe_spec.color_hex
      recipe_spec.phase_specs counter next_start_date
  pure ((attach_deps_rev phases.reverse 0).reverse, counter2)

/-- Embedding of the loop body of
`ProductionSchedule::rebuild_recipes_from_specs`: each recipe resolves its
start date (falling back to the timeline start, whose own parse failure
panics), takes the next id, and has its phases rebuilt. -/
def build_recipes (phase_templates : List ProductionPhaseTemplate)
    (timeline : ProductionTimeline) :
    List RecipeSpec → Nat → Except Unit (List Recipe × Nat)
  | [], counter => .ok ([], counter)
  | next_recipe_spec :: rest, counter => do
      let recipe_start_date ← match next_recipe_spec.start_date with
        | some x => pure x
        | none =>
            match timeline.start_date with
            | some y => pure y
            | none => Except.error ()
      let rid := get_next_id counter
      let (phases, counter2) ←
        rebuild_phases_from_specs phase_templates next_recipe_spec rid
      let recipe : Recipe :=
        ⟨rid, next_recipe_spec.name, next_recipe_spec.color_hex, phases,
         recipe_start_date⟩
      let (recipes, counter3) ← build_recipes phase_templates timeline rest counter2
      pure (recipe :: recipes, counter3)

/-- Embedding of `lib::ProductionSchedule`. -/
structure ProductionSchedule where
  name : String
  id : Nat
  timeline : ProductionTimeline
  phase_templates : List ProductionPhaseTemplate
  resources : List Resource
  recipes : List Recipe
  recipe_specs : List RecipeSpec
  last_id_used : Nat
  tracker : ResourceTracker
deriving DecidableEq, Repr

/-- Embedding of `ProductionSchedule::verify_recipe_start_dates`: recipe specs
without an explicit start string receive the timeline's start string. -/
def ProductionSchedule.verify_recipe_start_dates (s : ProductionSchedule) :
    ProductionSchedule :=
  { s with
    recipe_specs := s.recipe_specs.map (fun recipe_spec =>
      match recipe_spec.start_string with
      | some _ => recipe_spec
      | none => { recipe_spec with start_string := some s.timeline.start }) }

/-- Embedding of `ProductionSchedule::rebuild_recipes_from_specs`. -/
def ProductionSchedule.rebuild_recipes_from_specs (s : ProductionSchedule) :
    Except Unit ProductionSchedule := do
  let (recipes, counter) ←
    build_recipes s.phase_templates s.timeline s.recipe_specs s.last_id_used
  pure { s with recipes := recipes, last_id_used := counter }

/-- Embedding of `ProductionSchedule::track_resources`. -/
def ProductionSchedule.track_resources (s : ProductionSchedule) :
    ProductionSchedule :=
  { s with
    tracker := s.resources.foldl (fun t e => t.track_resource e) s.tracker }

/-- Embedding of `ProductionSchedule::init`: reset the id counter, fill in
missing recipe start strings, rebuild the recipe graph, register
resources. -/
def ProductionSchedule.init (s : ProductionSchedule) :
    Except Unit ProductionSchedule := do
  let s1 := { s with last_id_used := 0 }
  let s2 := s1.verify_recipe_start_dates
  let s3 ← s2.rebuild_recipes_from_specs
  pure s3.track_resources

/-! ## PLA rendering -/

/-- Embedding of `util::get_space_indent`: two spaces per indent level. -/
def get_space_indent (indents : Nat) : String :=
  String.mk (List.replicate (indents * 2) ' ')

/-- Embedding of `util::get_duration_in_hours`: chrono's `num_hours` divides
the number of seconds by 3600, truncating toward zero. -/
def get_duration_in_hours (duration : Int) : Int :=
  Int.tdiv duration 3600

/-- A natural number rendered in decimal and left-padded with zeros. -/
def natPad (width n : Nat) : String :=
  let s := Nat.repr n
  String.mk (List.replicate (width - s.length) '0') ++ s

/-- Modelled from the spec: chrono's rendering of a `NaiveDate` as
`YYYY-MM-DD` for the civil date of a timestamp. -/
def formatNaiveDate (ts : Int) : String :=
  let c := civilFromDays (ts / 86400)
  let yStr := if c.1 < 0 then "-" ++ natPad 4 (-c.1).toNat else natPad 4 c.1.toNat
  yStr ++ "-" ++ natPad 2 c.2.1 ++ "-" ++ natPad 2 c.2.2

/-- Modelled from the spec: chrono's `format("%Y-%m-%d %H")`, the truncated
date-time used for non-midnight phase starts. -/
def formatDateHour (ts : Int) : String :=
  formatNaiveDate ts ++ " " ++ natPad 2 ((ts % 86400) / 3600).toNat

/-- Embedding of `PhaseInstance::get_string_in_pla_format`: a header line,
start/color/duration lines, one `dep` line per dependency, and a blank
line.  Midnight start dates render date-only. -/
def PhaseInstance.get_string_in_pla_format (p : PhaseInstance)
    (initial_indent : Nat) : String :=
  let start_date_as_string :=
    if p.start_date % 86400 = 0 then formatNaiveDate p.start_date
    else formatDateHour p.start_date
  get_space_indent initial_indent ++ "[" ++ Nat.repr p.id ++ "] " ++
    p.description ++ "\n" ++
  get_space_indent (initial_indent + 1) ++ "start " ++ start_date_as_string ++ "\n" ++
  get_space_indent (initial_indent + 1) ++ "color " ++ p.color_hex ++ "\n" ++
  get_space_indent (initial_indent + 1) ++ "duration " ++
    toString (get_duration_in_hours p.duration) ++ "\n" ++
  String.join (p.dependencies.map (fun next_dependency =>
    get_space_indent 2 ++ "dep " ++ Nat.repr next_dependency ++ "\n")) ++
  "\n"

/-- Embedding of `Recipe::get_string_in_pla_format`: a header line, one
`child` line per phase, and a blank line. -/
def Recipe.get_string_in_pla_format (r : Recipe) (initial_indent : Nat) : String :=
  "[" ++ Nat.repr r.id ++ "] " ++ r.name ++ "\n" ++
  String.join (r.phases.map (fun next_phase =>
    get_space_indent initial_indent ++ "child " ++ Nat.repr next_phase.id ++ "\n")) ++
  "\n"

/-- Embedding of `ProductionSchedule::get_string_in_pla_format`: concatenate
every recipe's block followed by its phases' blocks, then strip the last
character with `final_pla[..final_pla.len() - 1]`.  On an empty rendering
the unsigned length underflows and the slice panics; `none` models that
panic. -/
def ProductionSchedule.get_string_in_pla_format (s : ProductionSchedule) :
    Option String :=
  let final_pla :=
    String.join (s.recipes.map (fun next_recipe =>
      next_recipe.get_string_in_pla_format 1 ++
      String.join (next_recipe.phases.map (fun next_phase =>
        next_phase.get_string_in_pla_format 1))))
  if final_pla.length = 0 then none
  else some (String.mk final_pla.data.dropLast)

/-- Embedding of the mutation performed by a successful
`Resource::allocate_over_period`: the period is pushed onto the allocation
list, which is then re-sorted ascending by start date. -/
def Resource.with_period_recorded (r : Resource) (period : NaivePeriod) : Resource :=
  { r with
    allocated_periods :=
      (r.allocated_periods ++
        [NaivePeriod.from_start_duration period.start period.duration]).insertionSort
        (fun a b => a.start ≤ b.start) }

/-- The id of a recipe followed by the ids of its phases, in construction
order. -/
def Recipe.id_list (r : Recipe) : List Nat :=
  r.id :: r.phases.map (fun p => p.id)

/-- All recipe and phase ids of a load, flattened in construction order. -/
def ids_of_recipes (rs : List Recipe) : List Nat :=
  (rs.map Recipe.id_list).flatten

/-! ## Demonstration values -/

/-- A schedule with no recipes at all, for exercising the renderer. -/
def emptySchedule : ProductionSchedule :=
  ⟨"Empty", 1, ⟨"date", "1970-01-01"⟩, [], [], [], [], 0, ResourceTracker.new⟩

/-- The kettle of the repository's own `test_get_resource_earliest_free_date`:
allocated from 2020-01-01T00:00:00 (timestamp 1577836800) for ten days. -/
def demoKettle : Resource :=
  ⟨2008, "Large Kettle", ResourceType.Kettle, "15g",
   [⟨1577836800, 1577836800 + 10 * 86400⟩]⟩

/-- A four-day query period starting 2020-01-04T00:00:00. -/
def demoPeriod : NaivePeriod :=
  NaivePeriod.from_start_duration (1577836800 + 3 * 86400) (4 * 86400)

/-- Two free fermentors with ids 1 and 2. -/
def demoTracker : ResourceTracker :=
  ⟨[(1, Resource.new 1 "FV-001" ResourceType.Fermentor "5g"),
    (2, Resource.new 2 "FV-002" ResourceType.Fermentor "5g")]⟩

/-- A phase template with a four-week default duration. -/
def demoTemplate : ProductionPhaseTemplate :=
  ⟨"Conditioning", "cond", 3, [], "#00ff00", "4w"⟩

/-- A timeline starting 2020-01-01. -/
def demoTimeline : ProductionTimeline := ⟨"date", "2020-01-01"⟩

/-- A recipe spec with three phases; the middle one inherits both duration
and description from the `cond` template. -/
def chainSpec : RecipeSpec :=
  ⟨"Pale Ale", "#ff0000",
   [⟨"Mash", "cond", "1d"⟩, ⟨"", "cond", ""⟩, ⟨"Ferment", "cond", "10d"⟩],
   some "2020-01-01"⟩

/-- The phases produced by rebuilding `chainSpec` with the counter at 1. -/
def chainPhases : List PhaseInstance :=
  [⟨2, "Mash", "#ff0000", 86400, [3], 1577836800⟩,
   ⟨3, "Conditioning", "#ff0000", 2419200, [4], 1577923200⟩,
   ⟨4, "Ferment", "#ff0000", 864000, [], 1580342400⟩]

/-- A recipe spec whose single phase references an unknown template but
carries an explicit parseable duration and a non-empty description. -/
def unknownTemplateSpec : RecipeSpec :=
  ⟨"Orphan", "#000000", [⟨"Boil", "nope", "5d"⟩], some "2020-01-01"⟩

/-- A recipe spec whose single phase references an unknown template and has
an empty description, so the template must be consulted. -/
def needyTemplateSpec : RecipeSpec :=
  ⟨"Needy", "#000000", [⟨"", "nope", "5d"⟩], some "2020-01-01"⟩

/-! ## Helper lemmas -/

instance : IsTotal NaivePeriod (fun a b => a.start ≤ b.start) :=
  ⟨fun a b => Int.le_total a.start b.start⟩

instance : IsTrans NaivePeriod (fun a b => a.start ≤ b.start) :=
  ⟨fun _ _ _ h1 h2 => le_trans h1 h2⟩

instance : IsTotal (Nat × Resource) (fun a b => a.1 ≤ b.1) :=
  ⟨fun a b => Nat.le_total a.1 b.1⟩

instance : IsTrans (Nat × Resource) (fun a b => a.1 ≤ b.1) :=
  ⟨fun _ _ _ h1 h2 => le_trans h1 h2⟩

theorem intersects_with_comm (p q : NaivePeriod) :
    p.intersects_with q = q.intersects_with p := by
  simp only [NaivePeriod.intersects_with, Bool.and_comm]

theorem disjoint_symm {p q : NaivePeriod} (h : p.disjoint q) : q.disjoint p := by
  simpa only [NaivePeriod.disjoint, intersects_with_comm] using h

theorem convert_last_not_digit (ds : List Char) (c : Char)
    (hc : c.isDigit = false) :
    convert_string_to_duration ⟨ds ++ [c]⟩ =
      match parseI64 ds with
      | none => .fatal
      | some digits => convert_unit c digits := by
  simp only [convert_string_to_duration, List.getLast?_concat, hc,
    Bool.false_eq_true, if_false, List.dropLast_concat]

theorem convert_all_digits (ds : List Char) (hne : ds ≠ [])
    (hdig : ds.all Char.isDigit = true) :
    convert_string_to_duration ⟨ds⟩ =
      match parseI64 ds with
      | none => .fatal
      | some digits => convert_unit 'd' digits := by
  have hl := List.getLast?_eq_getLast ds hne
  have hld : (ds.getLast hne).isDigit = true :=
    List.all_eq_true.mp hdig _ (List.getLast_mem hne)
  simp only [convert_string_to_duration, hl, hld, if_true, if_pos]

theorem convert_unit_other (c : Char) (n : Int) (hm : c ≠ 'm') (hw : c ≠ 'w')
    (hd : c ≠ 'd') (hh : c ≠ 'h') : convert_unit c n = .noResult := by
  unfold convert_unit
  split <;> simp_all

/-! ## Verified properties -/

/-- C9: duration parsing maps the unit letters to spans as `m` = 30-day
month, `w` = week, `d` = day, `h` = hour, a trailing digit implying unit `d`
over the whole digit run; concretely `"6m"` parses to 180 days, `"4w"` to
28 days, `"10d"` to 10 days, `"1h"` to 1 hour, and `""` and `"25x"` parse to
no result. -/
theorem duration_unit_mapping :
    (∀ (ds : List Char) (n : Int), ds ≠ [] → ds.all Char.isDigit = true →
      parseI64 ds = some n →
      convert_string_to_duration ⟨ds ++ ['m']⟩ = .ok (n * 30 * 86400) ∧
      convert_string_to_duration ⟨ds ++ ['w']⟩ = .ok (n * 7 * 86400) ∧
      convert_string_to_duration ⟨ds ++ ['d']⟩ = .ok (n * 86400) ∧
      convert_string_to_duration ⟨ds ++ ['h']⟩ = .ok (n * 3600) ∧
      convert_string_to_duration ⟨ds⟩ = .ok (n * 86400)) ∧
    convert_string_to_duration "6m" = .ok (180 * 86400) ∧
    convert_string_to_duration "4w" = .ok (28 * 86400) ∧
    convert_string_to_duration "10d" = .ok (10 * 86400) ∧
    convert_string_to_duration "1h" = .ok 3600 ∧
    convert_string_to_duration "" = .noResult ∧
    convert_string_to_duration "25x" = .noResult := by
  refine ⟨?_, by decide, by decide, by decide, by decide, by decide, by decide⟩
  intro ds n hne hdig hp
  refine ⟨?_, ?_, ?_, ?_, ?_⟩
  · rw [convert_last_not_digit ds 'm' (by decide), hp]; rfl
  · rw [convert_last_not_digit ds 'w' (by decide), hp]; rfl
  · rw [convert_last_not_digit ds 'd' (by decide), hp]; rfl
  · rw [convert_last_not_digit ds 'h' (by decide), hp]; rfl
  · rw [convert_all_digits ds hne hdig, hp]; rfl

/-- Witness for C9: the general mapping applied to the digit run `25`. -/
theorem duration_unit_mapping_witness :
    convert_string_to_duration ⟨['2', '5'] ++ ['m']⟩ = .ok (25 * 30 * 86400) :=
  (duration_unit_mapping.1 ['2', '5'] 25 (by decide) (by decide) (by decide)).1

/-- C8: the soft/hard failure asymmetry of duration parsing.  An empty string
or a parseable digit run followed by an unrecognized trailing non-digit
letter yields the soft no-result outcome, whereas a nonempty input whose
remaining digit run fails integer parsing after the unit has been accepted
(for example a bare unit letter) is fatal, an outcome distinct from
no-result. -/
theorem duration_failure_asymmetry :
    convert_string_to_duration "" = .noResult ∧
    (∀ (ds : List Char) (c : Char) (n : Int), parseI64 ds = some n →
      c.isDigit = false → c ≠ 'm' → c ≠ 'w' → c ≠ 'd' → c ≠ 'h' →
      convert_string_to_duration ⟨ds ++ [c]⟩ = .noResult) ∧
    (∀ (ds : List Char) (c : Char), c.isDigit = false → parseI64 ds = none →
      convert_string_to_duration ⟨ds ++ [c]⟩ = .fatal) ∧
    (∀ (ds : List Char), ds ≠ [] → ds.all Char.isDigit = true →
      parseI64 ds = none → convert_string_to_duration ⟨ds⟩ = .fatal) ∧
    DurationResult.fatal ≠ DurationResult.noResult := by
  refine ⟨by decide, ?_, ?_, ?_, by decide⟩
  · intro ds c n hp hc hm hw hd hh
    rw [convert_last_not_digit ds c hc, hp]
    exact convert_unit_other c n hm hw hd hh
  · intro ds c hc hp
    rw [convert_last_not_digit ds c hc, hp]
  · intro ds hne hdig hp
    rw [convert_all_digits ds hne hdig, hp]

/-- Witness for C8: `"25x"` is a soft no-result, while the bare unit letter
`"d"` is fatal. -/
theorem duration_failure_asymmetry_witness :
    convert_string_to_duration ⟨['2', '5'] ++ ['x']⟩ = .noResult ∧
    convert_string_to_duration ⟨[] ++ ['d']⟩ = .fatal :=
  ⟨duration_failure_asymmetry.2.1 ['2', '5'] 'x' 25 (by decide) (by decide)
      (by decide) (by decide) (by decide) (by decide),
   duration_failure_asymmetry.2.2.1 [] 'd' (by decide) (by decide)⟩

/-- C10: rendering a schedule whose recipe list is empty does not produce the
empty document: the rendered text is empty, the unconditional
last-character slice underflows, and the renderer panics (modelled as
`none`). -/
theorem pla_format_empty_recipes_panics (s : ProductionSchedule)
    (h : s.recipes = []) : s.get_string_in_pla_format = none := by
  simp [ProductionSchedule.get_string_in_pla_format, h, String.join]

/-- Witness for C10: the concrete schedule with zero recipes. -/
theorem pla_format_empty_recipes_panics_witness :
    emptySchedule.get_string_in_pla_format = none :=
  pla_format_empty_recipes_panics emptySchedule rfl

/-- C4: for a resource whose allocated intervals are pairwise non-overlapping,
an allocation request whose period intersects an existing interval is
refused (`none`, which in the source leaves the allocation list unchanged),
a fresh resource starts with no allocations, and a successful allocation
preserves pairwise non-overlap. -/
theorem allocation_preserves_disjointness (r : Resource) (start duration : Int)
    (hpair : r.allocated_periods.Pairwise NaivePeriod.disjoint) :
    (r.is_allocated_over_start_duration start duration = true →
      r.allocate_over_start_duration start duration = none) ∧
    (∀ (id : Nat) (nm : String) (ty : ResourceType) (cap : String),
      (Resource.new id nm ty cap).allocated_periods.Pairwise NaivePeriod.disjoint) ∧
    (∀ r2, r.allocate_over_start_duration start duration = some r2 →
      r2.allocated_periods.Pairwise NaivePeriod.disjoint) := by
  refine ⟨?_, ?_, ?_⟩
  · intro h
    simp [Resource.allocate_over_start_duration, h]
  · intro id nm ty cap
    simp [Resource.new]
  · intro r2 h
    by_cases halloc : r.is_allocated_over_start_duration start duration = true
    · simp [Resource.allocate_over_start_duration, halloc] at h
    · simp only [Resource.allocate_over_start_duration, halloc, Bool.false_eq_true,
        if_false, Option.some.injEq] at h
      subst h
      have hperm :=
        List.perm_insertionSort (fun a b : NaivePeriod => a.start ≤ b.start)
          (r.allocated_periods ++ [NaivePeriod.from_start_duration start duration])
      rw [(hperm.pairwise_iff (fun h => disjoint_symm h))]
      rw [List.pairwise_append]
      refine ⟨hpair, by simp, ?_⟩
      intro a ha b hb
      rw [List.mem_singleton] at hb
      subst hb
      simp only [Resource.is_allocated_over_start_duration, List.any_eq_true,
        not_exists, not_and] at halloc
      exact fun hcontra => halloc a ha hcontra

/-- Witness for C4: a kettle holding one ten-day allocation refuses an
intersecting three-day-offset request, and a disjoint request preserves
non-overlap. -/
theorem allocation_preserves_disjointness_witness :
    demoKettle.allocate_over_start_duration (1577836800 + 3 * 86400) 86400 = none :=
  (allocation_preserves_disjointness demoKettle (1577836800 + 3 * 86400) 86400
      (by simp [demoKettle])).1 (by decide)

theorem pairwise_stop_lt (l : List NaivePeriod)
    (hsorted : l.Pairwise (fun a b => a.start ≤ b.start))
    (hwf : ∀ p ∈ l, p.start ≤ p.stop)
    (hpair : l.Pairwise NaivePeriod.disjoint) :
    l.Pairwise (fun a b => a.stop < b.stop) := by
  refine (hsorted.and hpair).imp_of_mem ?_
  intro a b ha hb hab
  have hwa := hwf a ha
  have hwb := hwf b hb
  obtain ⟨h1, h2⟩ := hab
  simp only [NaivePeriod.disjoint, NaivePeriod.intersects_with, Bool.and_eq_true,
    decide_eq_true_eq, not_and, not_le] at h2
  omega

/-- C2: `get_earliest_free_date_for_period` on a resource with a sorted,
well-formed, pairwise non-overlapping allocation list.  If the resource is
free for the period the result is the period's start; otherwise, for any
surviving candidate (an allocated interval end + 1 second, over intervals
whose end does not precede the period start, at which a period of the same
duration intersects nothing), the result is the smallest such candidate. -/
theorem earliest_free_date_spec (r : Resource) (period : NaivePeriod)
    (hsorted : r.allocated_periods.Pairwise (fun a b => a.start ≤ b.start))
    (hwf : ∀ p ∈ r.allocated_periods, p.start ≤ p.stop)
    (hpair : r.allocated_periods.Pairwise NaivePeriod.disjoint) :
    (r.is_allocated_over_start_duration period.start period.duration = false →
      r.get_earliest_free_date_for_period period = some period.start) ∧
    (r.is_allocated_over_start_duration period.start period.duration = true →
      ∀ c ∈ r.free_candidates period,
        ∃ m, r.get_earliest_free_date_for_period period = some m ∧
          m ∈ r.free_candidates period ∧
          ∀ x ∈ r.free_candidates period, m ≤ x) := by
  constructor
  · intro h
    simp [Resource.get_earliest_free_date_for_period, h]
  · intro halloc c hc
    have hlt := pairwise_stop_lt _ hsorted hwf hpair
    have hfsub :=
      List.Pairwise.sublist
        (@List.filter_sublist NaivePeriod
          (fun needle =>
            if needle.stop < period.start then false
            else !r.is_allocated_over_start_duration (needle.stop + 1) period.duration)
          r.allocated_periods) hlt
    have hcands : (r.free_candidates period).Pairwise (fun a b => a ≤ b) := by
      unfold Resource.free_candidates
      rw [List.pairwise_map]
      exact hfsub.imp (fun h => by omega)
    have hres : r.get_earliest_free_date_for_period period =
        (r.free_candidates period).head? := by
      simp [Resource.get_earliest_free_date_for_period, halloc]
    rcases hcl : r.free_candidates period with - | ⟨m, rest⟩
    · rw [hcl] at hc
      cases hc
    · refine ⟨m, ?_, ?_, ?_⟩
      · rw [hres, hcl]
        rfl
      · exact List.mem_cons_self m rest
      · intro x hx
        rw [hcl] at hcands
        rcases List.mem_cons.mp hx with h | h
        · exact le_of_eq h.symm
        · exact (List.pairwise_cons.mp hcands).1 x h

/-- Witness for C2: the repository's own example, a resource allocated from
2020-01-01 for ten days queried with a four-day period starting 2020-01-04,
yields 2020-01-11T00:00:01 (timestamp 1578700801). -/
theorem earliest_free_date_spec_witness :
    demoKettle.get_earliest_free_date_for_period demoPeriod = some 1578700801 := by
  obtain ⟨m, hm, hmem, -⟩ :=
    (earliest_free_date_spec demoKettle demoPeriod (by simp [demoKettle])
        (by decide) (by simp [demoKettle])).2 (by decide) 1578700801 (by decide)
  have h2 : demoKettle.free_candidates demoPeriod = [1578700801] := by decide
  rw [h2, List.mem_singleton] at hmem
  rw [hm, hmem]

theorem find?_sorted_min {α : Type _} (key : α → Nat) (p : α → Bool) :
    ∀ (l : List α), l.Pairwise (fun a b => key a ≤ key b) →
      ∀ x, l.find? p = some x → ∀ y ∈ l, p y = true → key x ≤ key y := by
  intro l
  induction l with
  | nil => intro _ x h; simp at h
  | cons a l ih =>
      intro hp x h y hy hpy
      rw [List.pairwise_cons] at hp
      by_cases hpa : p a = true
      · rw [List.find?_cons_of_pos _ hpa] at h
        have hxa := Option.some.inj h
        subst hxa
        rcases List.mem_cons.mp hy with rfl | hy2
        · exact le_refl _
        · exact hp.1 y hy2
      · rw [List.find?_cons_of_neg _ (by simpa using hpa)] at h
        rcases List.mem_cons.mp hy with rfl | hy2
        · exact absurd hpy hpa
        · exact ih hp.2 x h y hy2 hpy

theorem find?_isSome_of_any {α : Type _} (p : α → Bool) (l l2 : List α)
    (hperm : l.Perm l2) (h : ∃ y ∈ l, p y = true) :
    ∃ x, l2.find? p = some x := by
  rcases h with ⟨y, hy, hpy⟩
  have hy2 : y ∈ l2 := hperm.mem_iff.mp hy
  cases hfind : l2.find? p with
  | none => exact absurd hpy (List.find?_eq_none.mp hfind y hy2)
  | some x => exact ⟨x, rfl⟩

theorem allocate_over_period_free (r : Resource) (period : NaivePeriod)
    (h : r.is_allocated_over_period period = false) :
    r.allocate_over_period period = some (r.with_period_recorded period) := by
  rw [Resource.is_allocated_over_period] at h
  simp [Resource.allocate_over_period, Resource.allocate_over_start_duration,
    Resource.with_period_recorded, h]

/-- C3: tracker allocation.  When no resource of the requested type is free
for the whole period the call reports unavailability and leaves the tracker
unchanged; otherwise there is a tracked resource of the requested type,
free for the period, of minimal id among all such resources, and the call
records the period on exactly that resource (keeping its allocation list
sorted ascending by start date) and returns it. -/
theorem allocate_resource_spec (t : ResourceTracker) (rt : ResourceType)
    (period : NaivePeriod)
    (_hkeys : (t.resources.map Prod.fst).Nodup)
    (hid : ∀ p ∈ t.resources, p.1 = p.2.id) :
    (t.is_resource_of_type_free_for_period rt period = false →
      t.allocate_resource_of_type_for_period rt period = .ok (none, t)) ∧
    (t.is_resource_of_type_free_for_period rt period = true →
      ∃ k r, (k, r) ∈ t.resources ∧ r.resource_type = rt ∧
        r.is_allocated_over_period period = false ∧
        (∀ q ∈ t.resources, q.2.resource_type = rt →
          q.2.is_allocated_over_period period = false → r.id ≤ q.2.id) ∧
        t.allocate_resource_of_type_for_period rt period =
          .ok (some (r.with_period_recorded period),
               ⟨t.resources.map (fun q =>
                  if q.1 = k then (q.1, r.with_period_recorded period) else q)⟩) ∧
        (r.with_period_recorded period).allocated_periods.Pairwise
          (fun a b => a.start ≤ b.start)) := by
  constructor
  · intro h
    simp [ResourceTracker.allocate_resource_of_type_for_period, h]
  · intro h
    have hex : ∃ y ∈ t.resources,
        (fun hash_entry : Nat × Resource =>
          hash_entry.2.resource_type = rt
            && !hash_entry.2.is_allocated_over_period period) y = true := by
      simp only [ResourceTracker.is_resource_of_type_free_for_period,
        List.any_eq_true, List.mem_filter] at h
      rcases h with ⟨y, ⟨hy, hty⟩, hfree⟩
      exact ⟨y, hy, by simp_all⟩
    have hperm :
        (t.resources.insertionSort (fun a b => a.1 ≤ b.1)).Perm t.resources :=
      List.perm_insertionSort _ _
    obtain ⟨x, hfind⟩ := find?_isSome_of_any _ t.resources _ hperm.symm hex
    have hpx := List.find?_some hfind
    have hxmem : x ∈ t.resources :=
      hperm.mem_iff.mp (List.mem_of_find?_eq_some hfind)
    have hsorted_pw :
        (t.resources.insertionSort (fun a b => a.1 ≤ b.1)).Pairwise
          (fun a b => a.1 ≤ b.1) :=
      List.sorted_insertionSort _ _
    have hmin := find?_sorted_min (fun a : Nat × Resource => a.1) _ _ hsorted_pw x hfind
    simp only [Bool.and_eq_true, decide_eq_true_eq, Bool.not_eq_true'] at hpx
    obtain ⟨hty, hfree⟩ := hpx
    refine ⟨x.1, x.2, by simpa using hxmem, hty, hfree, ?_, ?_, ?_⟩
    · intro q hq hqty hqfree
      have hpq : (fun hash_entry : Nat × Resource =>
          hash_entry.2.resource_type = rt
            && !hash_entry.2.is_allocated_over_period period) q = true := by
        simp [hqty, hqfree]
      have hq2 : q ∈ t.resources.insertionSort (fun a b => a.1 ≤ b.1) :=
        hperm.mem_iff.mpr hq
      have hle := hmin q hq2 hpq
      rw [← hid x hxmem, ← hid q hq]
      exact hle
    · simp only [ResourceTracker.allocate_resource_of_type_for_period, h,
        Bool.not_true, Bool.false_eq_true, if_false, hfind,
        allocate_over_period_free x.2 period hfree]
    · exact List.sorted_insertionSort _ _

/-- Witness for C3: two free fermentors with ids 1 and 2; allocation of a
one-day period returns the fermentor with id 1 with the period recorded. -/
theorem allocate_resource_spec_witness :
    demoTracker.allocate_resource_of_type_for_period ResourceType.Fermentor
        ⟨0, 86400⟩ =
      .ok (some ⟨1, "FV-001", ResourceType.Fermentor, "5g", [⟨0, 86400⟩]⟩,
           ⟨[(1, ⟨1, "FV-001", ResourceType.Fermentor, "5g", [⟨0, 86400⟩]⟩),
             (2, Resource.new 2 "FV-002" ResourceType.Fermentor "5g")]⟩) := by
  have h := (allocate_resource_spec demoTracker ResourceType.Fermentor ⟨0, 86400⟩
      (by decide) (by decide)).2 (by decide)
  rfl

theorem except_error_bind {α β : Type _} (f : α → Except Unit β) :
    ((Except.error () : Except Unit α) >>= f) = .error () := rfl

theorem except_bind_ok {α β : Type _} (x : Except Unit α) (f : α → Except Unit β)
    (b : β) : (x >>= f = .ok b) ↔ ∃ a, x = .ok a ∧ f a = .ok b := by
  cases x with
  | error e => simp [Bind.bind, Except.bind]
  | ok a => simp [Bind.bind, Except.bind]

theorem except_bind_error {α β : Type _} (x : Except Unit α)
    (f : α → Except Unit β) :
    (x >>= f = .error ()) ↔ x = .error () ∨ ∃ a, x = .ok a ∧ f a = .error () := by
  cases x with
  | error e => cases e; simp [Bind.bind, Except.bind]
  | ok a => simp [Bind.bind, Except.bind]

theorem build_phases_forward_cons_ok {templates : List ProductionPhaseTemplate}
    {color : String} {spec : PhaseInstanceSpec} {rest : List PhaseInstanceSpec}
    {c : Nat} {sd : Int} {phases : List PhaseInstance} {c2 : Nat}
    (h : build_phases_forward templates color (spec :: rest) c sd =
      .ok (phases, c2)) :
    ∃ d desc ps, resolved_duration templates spec = .ok d ∧
      resolve_description templates spec = .ok desc ∧
      build_phases_forward templates color rest (c + 1) (sd + d) = .ok (ps, c2) ∧
      phases = PhaseInstance.new (c + 1) desc color d sd :: ps := by
  simp only [build_phases_forward, get_next_id] at h
  obtain ⟨dur0, h1, h⟩ := (except_bind_ok _ _ _).mp h
  split at h
  next x =>
      rw [pure_bind] at h
      obtain ⟨desc, h3, h⟩ := (except_bind_ok _ _ _).mp h
      obtain ⟨psc, h4, h5⟩ := (except_bind_ok _ _ _).mp h
      obtain ⟨ps, c3⟩ := psc
      simp only [pure, Except.pure, Except.ok.injEq, Prod.mk.injEq] at h5
      obtain ⟨hph, hc⟩ := h5
      refine ⟨x, desc, ps, ?_, h3, ?_, ?_⟩
      · exact (except_bind_ok _ _ _).mpr ⟨some x, h1, rfl⟩
      · rw [hc] at h4
        exact h4
      · exact hph.symm
  next =>
      obtain ⟨dur, h2, h⟩ := (except_bind_ok _ _ _).mp h
      obtain ⟨desc, h3, h⟩ := (except_bind_ok _ _ _).mp h
      obtain ⟨psc, h4, h5⟩ := (except_bind_ok _ _ _).mp h
      obtain ⟨ps, c3⟩ := psc
      simp only [pure, Except.pure, Except.ok.injEq, Prod.mk.injEq] at h5
      obtain ⟨hph, hc⟩ := h5
      cases dur with
      | some v =>
          refine ⟨v, desc, ps, ?_, h3, ?_, ?_⟩
          · exact (except_bind_ok _ _ _).mpr ⟨none, h1,
              (except_bind_ok _ _ _).mpr ⟨some v, h2, rfl⟩⟩
          · rw [hc] at h4
            exact h4
          · exact hph.symm
      | none =>
          refine ⟨86400, desc, ps, ?_, h3, ?_, ?_⟩
          · exact (except_bind_ok _ _ _).mpr ⟨none, h1,
              (except_bind_ok _ _ _).mpr ⟨none, h2, rfl⟩⟩
          · rw [hc] at h4
            exact h4
          · exact hph.symm

theorem build_phases_forward_spec (templates : List ProductionPhaseTemplate)
    (color : String) :
    ∀ (specs : List PhaseInstanceSpec) (c : Nat) (sd : Int)
      (phases : List PhaseInstance) (c2 : Nat),
      build_phases_forward templates color specs c sd = .ok (phases, c2) →
      phases.length = specs.length ∧ c2 = c + specs.length ∧
      (∀ i (hi : i < phases.length),
        (phases.get ⟨i, hi⟩).dependencies = [] ∧
        (phases.get ⟨i, hi⟩).id = c + i + 1) ∧
      (∀ (hne : phases ≠ []), (phases.head hne).start_date = sd) ∧
      (∀ i (hi : i + 1 < phases.length),
        (phases.get ⟨i + 1, hi⟩).start_date =
          (phases.get ⟨i, Nat.lt_of_succ_lt hi⟩).start_date +
          (phases.get ⟨i, Nat.lt_of_succ_lt hi⟩).duration) ∧
      (∀ i (hi : i < phases.length) (hi2 : i < specs.length),
        resolved_duration templates (specs.get ⟨i, hi2⟩) =
          .ok (phases.get ⟨i, hi⟩).duration) := by
  intro specs
  induction specs with
  | nil =>
      intro c sd phases c2 h
      simp only [build_phases_forward, Except.ok.injEq, Prod.mk.injEq] at h
      obtain ⟨hph, hc⟩ := h
      subst hph
      subst hc
      refine ⟨rfl, rfl, ?_, ?_, ?_, ?_⟩
      · intro i hi; cases hi
      · intro hne; cases hne rfl
      · intro i hi; cases hi
      · intro i hi; cases hi
  | cons spec rest ih =>
      intro c sd phases c2 h
      obtain ⟨d, desc, ps, hd, hdesc, hrest, hph⟩ := build_phases_forward_cons_ok h
      subst hph
      obtain ⟨ihlen, ihc2, ihprops, ihhead, ihchain, ihdur⟩ :=
        ih (c + 1) (sd + d) ps c2 hrest
      have hne' : ∀ (hlen : 0 < ps.length), ps ≠ [] := by
        intro hlen hcon
        rw [hcon] at hlen
        cases hlen
      refine ⟨by simp [ihlen], by simp [ihc2]; omega, ?_, ?_, ?_, ?_⟩
      · intro i hi
        cases i with
        | zero => exact ⟨rfl, rfl⟩
        | succ j =>
            have hj : j < ps.length := by
              simpa using Nat.lt_of_succ_lt_succ hi
            obtain ⟨hdep, hid⟩ := ihprops j hj
            refine ⟨hdep, ?_⟩
            rw [show ((PhaseInstance.new (c + 1) desc color d sd :: ps).get
                ⟨j + 1, hi⟩) = ps.get ⟨j, hj⟩ from rfl, hid]
            omega
      · intro hne
        rfl
      · intro i hi
        cases i with
        | zero =>
            have h0 : 0 < ps.length := by simpa using Nat.lt_of_succ_lt_succ hi
            have hhead := ihhead (hne' h0)
            rw [show ((PhaseInstance.new (c + 1) desc color d sd :: ps).get
                ⟨1, hi⟩) = ps.get ⟨0, h0⟩ from rfl]
            rw [show ps.get ⟨0, h0⟩ = ps.head (hne' h0) from by
              rw [List.get_eq_getElem, ← List.head_eq_getElem_zero (hne' h0)]]
            rw [hhead]
            rfl
        | succ j =>
            have hj : j + 1 < ps.length := by
              simpa using Nat.lt_of_succ_lt_succ hi
            exact ihchain j hj
      · intro i hi hi2
        cases i with
        | zero => exact hd
        | succ j =>
            have hj : j < ps.length := by
              simpa using Nat.lt_of_succ_lt_succ hi
            have hj2 : j < rest.length := by
              simpa using Nat.lt_of_succ_lt_succ hi2
            exact ihdur j hj hj2

theorem add_dependency_of_empty (p : PhaseInstance) (v : Nat)
    (hp : p.dependencies = []) :
    p.add_dependency v = { p with dependencies := [v] } := by
  simp [PhaseInstance.add_dependency, hp, List.insertionSort, List.orderedInsert]

theorem attach_deps_rev_eq :
    ∀ (l : List PhaseInstance) (prev : Nat), (∀ p ∈ l, p.dependencies = []) →
      attach_deps_rev l prev =
        (l.zip (prev :: l.map (fun p => p.id))).map
          (fun pv => if pv.2 > 0 then { pv.1 with dependencies := [pv.2] }
                     else pv.1) := by
  intro l
  induction l with
  | nil => intro prev _; rfl
  | cons p rest ih =>
      intro prev h
      have hp : p.dependencies = [] := h p (List.mem_cons_self _ _)
      have hrest : ∀ q ∈ rest, q.dependencies = [] := fun q hq =>
        h q (List.mem_cons_of_mem _ hq)
      simp only [attach_deps_rev, List.map_cons, List.zip_cons_cons]
      by_cases hprev : prev > 0
      · rw [if_pos hprev, if_pos hprev, add_dependency_of_empty p prev hp]
        exact congrArg (List.cons _) (ih p.id hrest)
      · rw [if_neg hprev, if_neg hprev]
        exact congrArg (List.cons _) (ih p.id hrest)

theorem attach_bridge (phases ps : List PhaseInstance)
    (hps : ps = (attach_deps_rev phases.reverse 0).reverse)
    (hdeps : ∀ p ∈ phases, p.dependencies = [])
    (hpos : ∀ p ∈ phases, 0 < p.id) :
    ps.length = phases.length ∧
    ∀ i (hi : i < ps.length) (hi2 : i < phases.length),
      ps.get ⟨i, hi⟩ =
        if h2 : i + 1 < phases.length then
          { phases.get ⟨i, hi2⟩ with
            dependencies := [(phases.get ⟨i + 1, h2⟩).id] }
        else phases.get ⟨i, hi2⟩ := by
  have hdeps' : ∀ p ∈ phases.reverse, p.dependencies = [] := fun p hp =>
    hdeps p (List.mem_reverse.mp hp)
  rw [attach_deps_rev_eq phases.reverse 0 hdeps'] at hps
  subst hps
  set F : PhaseInstance × Nat → PhaseInstance :=
    fun pv => if pv.2 > 0 then { pv.1 with dependencies := [pv.2] } else pv.1
    with hF
  set l2 : List Nat := 0 :: phases.reverse.map (fun p => p.id) with hl2
  set zl : List (PhaseInstance × Nat) := phases.reverse.zip l2 with hzl2
  have hrl : phases.reverse.length = phases.length := List.length_reverse _
  have hl2len : l2.length = phases.length + 1 := by simp [hl2]
  have hzl : zl.length = phases.length := by
    rw [hzl2, List.length_zip]
    omega
  have hm : (zl.map F).length = phases.length := by
    rw [List.length_map, hzl]
  have hmr : (zl.map F).reverse.length = phases.length := by
    rw [List.length_reverse, hm]
  refine ⟨hmr, ?_⟩
  intro i hi hi2
  have s1 : (zl.map F).reverse.get ⟨i, hi⟩ = (zl.map F).reverse[i] :=
    List.get_eq_getElem _ _
  have s2 : (zl.map F).reverse[i] = (zl.map F)[phases.length - 1 - i] := by
    rw [List.getElem_reverse]
    congr 1
    omega
  have s3 : (zl.map F)[phases.length - 1 - i] = F zl[phases.length - 1 - i] :=
    List.getElem_map F
  have s4 : zl[phases.length - 1 - i] =
      (phases.reverse[phases.length - 1 - i], l2[phases.length - 1 - i]) :=
    List.getElem_zip
  have s5 : phases.reverse[phases.length - 1 - i] = phases[i] := by
    rw [List.getElem_reverse]
    congr 1
    omega
  have hmap : (phases.reverse.map (fun p => p.id)).length = phases.length := by
    simp
  by_cases hcase : i + 1 < phases.length
  · have s6 : l2[phases.length - 1 - i] = l2[(phases.length - 2 - i) + 1] := by
      congr 1
      omega
    have s7 : l2[(phases.length - 2 - i) + 1] =
        (phases.reverse.map (fun p => p.id))[phases.length - 2 - i] :=
      List.getElem_cons_succ _ _ _ _
    have s8 : (phases.reverse.map (fun p => p.id))[phases.length - 2 - i] =
        (phases.reverse[phases.length - 2 - i]).id :=
      List.getElem_map _
    have s9 : phases.reverse[phases.length - 2 - i] = phases[i + 1] := by
      rw [List.getElem_reverse]
      congr 1
      omega
    have big : (zl.map F).reverse.get ⟨i, hi⟩ = F (phases[i], (phases[i + 1]).id) := by
      rw [s1, s2, s3, s4, s5, s6, s7, s8, s9]
    rw [big, dif_pos hcase, hF]
    have hpos' : 0 < (phases[i + 1]).id := hpos _ (List.getElem_mem _)
    simp only [if_pos hpos']
    rw [List.get_eq_getElem, List.get_eq_getElem]
  · have s6a : l2[phases.length - 1 - i] = l2[0] := by
      congr 1
      omega
    have s6 : l2[phases.length - 1 - i] = 0 := by
      rw [s6a]
      exact List.getElem_cons_zero _ _ _
    have big : (zl.map F).reverse.get ⟨i, hi⟩ = F (phases[i], 0) := by
      rw [s1, s2, s3, s4, s5, s6]
    rw [big, dif_neg hcase, hF]
    simp only [gt_iff_lt, Nat.lt_irrefl, if_false]
    rw [List.get_eq_getElem]

theorem rebuild_phases_ok {templates : List ProductionPhaseTemplate}
    {spec : RecipeSpec} {c : Nat} {ps : List PhaseInstance} {c2 : Nat}
    (h : rebuild_phases_from_specs templates spec c = .ok (ps, c2)) :
    ∃ sd phases, spec.start_date = some sd ∧
      build_phases_forward templates spec.color_hex spec.phase_specs c sd =
        .ok (phases, c2) ∧
      ps = (attach_deps_rev phases.reverse 0).reverse := by
  simp only [rebuild_phases_from_specs] at h
  split at h
  next sd heq =>
      rw [pure_bind] at h
      obtain ⟨pc, h2, h3⟩ := (except_bind_ok _ _ _).mp h
      obtain ⟨phases, c3⟩ := pc
      simp only [pure, Except.pure, Except.ok.injEq, Prod.mk.injEq] at h3
      obtain ⟨hps, hc⟩ := h3
      exact ⟨sd, phases, heq, by rw [hc] at h2; exact h2, hps.symm⟩
  next heq =>
      rw [except_error_bind] at h
      exact Except.noConfusion h

theorem build_recipes_cons_ok {templates : List ProductionPhaseTemplate}
    {timeline : ProductionTimeline} {spec : RecipeSpec} {rest : List RecipeSpec}
    {c : Nat} {rs : List Recipe} {c2 : Nat}
    (h : build_recipes templates timeline (spec :: rest) c = .ok (rs, c2)) :
    ∃ sd phases c3 rs2,
      (spec.start_date = some sd ∨
        (spec.start_date = none ∧ timeline.start_date = some sd)) ∧
      rebuild_phases_from_specs templates spec (c + 1) = .ok (phases, c3) ∧
      build_recipes templates timeline rest c3 = .ok (rs2, c2) ∧
      rs = ⟨c + 1, spec.name, spec.color_hex, phases, sd⟩ :: rs2 := by
  simp only [build_recipes, get_next_id] at h
  split at h
  next sd heq =>
      rw [pure_bind] at h
      obtain ⟨pc, h2, h3⟩ := (except_bind_ok _ _ _).mp h
      obtain ⟨phases, c3⟩ := pc
      obtain ⟨rc, h4, h5⟩ := (except_bind_ok _ _ _).mp h3
      obtain ⟨rs2, c4⟩ := rc
      simp only [pure, Except.pure, Except.ok.injEq, Prod.mk.injEq] at h5
      obtain ⟨hrs, hc⟩ := h5
      exact ⟨sd, phases, c3, rs2, Or.inl heq, h2, by rw [hc] at h4; exact h4,
        hrs.symm⟩
  next heq =>
      split at h
      next sd heq2 =>
          rw [pure_bind] at h
          obtain ⟨pc, h2, h3⟩ := (except_bind_ok _ _ _).mp h
          obtain ⟨phases, c3⟩ := pc
          obtain ⟨rc, h4, h5⟩ := (except_bind_ok _ _ _).mp h3
          obtain ⟨rs2, c4⟩ := rc
          simp only [pure, Except.pure, Except.ok.injEq, Prod.mk.injEq] at h5
          obtain ⟨hrs, hc⟩ := h5
          exact ⟨sd, phases, c3, rs2, Or.inr ⟨heq, heq2⟩, h2,
            by rw [hc] at h4; exact h4, hrs.symm⟩
      next heq2 =>
          rw [except_error_bind] at h
          exact Except.noConfusion h

theorem phases_of_rebuild_have_empty_deps {templates : List ProductionPhaseTemplate}
    {color : String} {specs : List PhaseInstanceSpec} {c : Nat} {sd : Int}
    {phases : List PhaseInstance} {c2 : Nat}
    (hfwd : build_phases_forward templates color specs c sd = .ok (phases, c2)) :
    (∀ p ∈ phases, p.dependencies = []) ∧ (∀ p ∈ phases, 0 < p.id) := by
  obtain ⟨-, -, hprops, -, -, -⟩ :=
    build_phases_forward_spec templates color specs c sd phases c2 hfwd
  constructor
  · intro p hp
    obtain ⟨j, hjp⟩ := List.mem_iff_get.mp hp
    rw [← hjp]
    exact (hprops j.1 j.2).1
  · intro p hp
    obtain ⟨j, hjp⟩ := List.mem_iff_get.mp hp
    rw [← hjp]
    rw [(hprops j.1 j.2).2]
    omega

/-- C5: dependency chaining.  For a recipe's rebuilt phase list, every phase
except the chronologically last carries exactly one dependency, the id of
its immediate chronological successor, and the chronologically last phase
has no dependencies. -/
theorem dependency_chain (templates : List ProductionPhaseTemplate)
    (spec : RecipeSpec) (c : Nat) (ps : List PhaseInstance) (c2 : Nat)
    (h : rebuild_phases_from_specs templates spec c = .ok (ps, c2)) :
    (∀ i (hi : i + 1 < ps.length),
      (ps.get ⟨i, Nat.lt_of_succ_lt hi⟩).dependencies =
        [(ps.get ⟨i + 1, hi⟩).id]) ∧
    (∀ (hne : ps ≠ []), (ps.getLast hne).dependencies = []) := by
  obtain ⟨sd, phases, hsd, hfwd, hps⟩ := rebuild_phases_ok h
  obtain ⟨hdeps, hpos⟩ := phases_of_rebuild_have_empty_deps hfwd
  obtain ⟨hblen, hbr⟩ := attach_bridge phases ps hps hdeps hpos
  constructor
  · intro i hi
    have hi0 : i < ps.length := Nat.lt_of_succ_lt hi
    have hi2 : i < phases.length := by omega
    have hi3 : i + 1 < phases.length := by omega
    have e1 := hbr i hi0 hi2
    have e2 := hbr (i + 1) hi hi3
    rw [e1, dif_pos hi3, e2]
    by_cases hc2 : i + 1 + 1 < phases.length
    · rw [dif_pos hc2]
    · rw [dif_neg hc2]
  · intro hne
    have hne2 : 0 < ps.length := List.length_pos.mpr hne
    have hi2 : ps.length - 1 < phases.length := by omega
    have e := hbr (ps.length - 1) (by omega) hi2
    have e2 : (ps.get ⟨ps.length - 1, by omega⟩).dependencies = [] := by
      rw [e, dif_neg (by omega)]
      have hmem : phases.get ⟨ps.length - 1, hi2⟩ ∈ phases := List.get_mem _ _ _
      exact hdeps _ hmem
    rw [List.getLast_eq_getElem]
    exact e2

/-- Witness for C5: the three-phase demo recipe.  Phase 0 depends on phase
1's id, and the chronologically last phase has no dependencies. -/
theorem dependency_chain_witness :
    (chainPhases.get ⟨0, by decide⟩).dependencies =
      [(chainPhases.get ⟨1, by decide⟩).id] ∧
    (chainPhases.getLast (by decide)).dependencies = [] :=
  ⟨(dependency_chain [demoTemplate] chainSpec 1 chainPhases 4 (by rfl)).1 0
      (by decide),
   (dependency_chain [demoTemplate] chainSpec 1 chainPhases 4 (by rfl)).2
      (by decide)⟩

theorem attach_bridge_fields (phases ps : List PhaseInstance)
    (hps : ps = (attach_deps_rev phases.reverse 0).reverse)
    (hdeps : ∀ p ∈ phases, p.dependencies = [])
    (hpos : ∀ p ∈ phases, 0 < p.id) :
    ps.length = phases.length ∧
    ∀ i (hi : i < ps.length) (hi2 : i < phases.length),
      (ps.get ⟨i, hi⟩).id = (phases.get ⟨i, hi2⟩).id ∧
      (ps.get ⟨i, hi⟩).start_date = (phases.get ⟨i, hi2⟩).start_date ∧
      (ps.get ⟨i, hi⟩).duration = (phases.get ⟨i, hi2⟩).duration := by
  obtain ⟨hlen, hbr⟩ := attach_bridge phases ps hps hdeps hpos
  refine ⟨hlen, ?_⟩
  intro i hi hi2
  rw [hbr i hi hi2]
  by_cases h2 : i + 1 < phases.length
  · rw [dif_pos h2]
    exact ⟨rfl, rfl, rfl⟩
  · rw [dif_neg h2]
    exact ⟨rfl, rfl, rfl⟩

/-- C6: strict seriality.  Every recipe built by `build_recipes` has its
first phase starting at the recipe's resolved start date and each later
phase starting exactly when its predecessor ends; every phase's duration is
the resolved one (explicit override, else template default, else one
day). -/
theorem phases_strictly_serial (templates : List ProductionPhaseTemplate)
    (timeline : ProductionTimeline) :
    ∀ (specs : List RecipeSpec) (c : Nat) (rs : List Recipe) (c2 : Nat),
      build_recipes templates timeline specs c = .ok (rs, c2) →
      ∀ r ∈ rs,
      (∀ (hne : r.phases ≠ []), (r.phases.head hne).start_date = r.start_date) ∧
      (∀ i (hi : i + 1 < r.phases.length),
        (r.phases.get ⟨i + 1, hi⟩).start_date =
          (r.phases.get ⟨i, Nat.lt_of_succ_lt hi⟩).start_date +
          (r.phases.get ⟨i, Nat.lt_of_succ_lt hi⟩).duration) ∧
      (∃ spec ∈ specs, r.phases.length = spec.phase_specs.length ∧
        ∀ i (hi : i < r.phases.length) (hi2 : i < spec.phase_specs.length),
          resolved_duration templates (spec.phase_specs.get ⟨i, hi2⟩) =
            .ok (r.phases.get ⟨i, hi⟩).duration) := by
  intro specs
  induction specs with
  | nil =>
      intro c rs c2 h r hr
      simp only [build_recipes, Except.ok.injEq, Prod.mk.injEq] at h
      rw [← h.1] at hr
      cases hr
  | cons spec rest ih =>
      intro c rs c2 h r hr
      obtain ⟨sd, phases, c3, rs2, hsd, hreb, hrest, hrs⟩ := build_recipes_cons_ok h
      subst hrs
      rcases List.mem_cons.mp hr with rfl | hr2
      · obtain ⟨sd2, phases2, hsd2, hfwd, hps⟩ := rebuild_phases_ok hreb
        dsimp only
        have hsdeq : sd2 = sd := by
          rcases hsd with heq | ⟨heq, -⟩
          · rw [heq] at hsd2
            exact (Option.some.inj hsd2).symm
          · rw [heq] at hsd2
            cases hsd2
        subst hsdeq
        obtain ⟨hdeps, hpos⟩ := phases_of_rebuild_have_empty_deps hfwd
        obtain ⟨hblen, hfields⟩ := attach_bridge_fields phases2 phases hps hdeps hpos
        obtain ⟨hflen, -, -, hfhead, hfchain, hfdur⟩ :=
          build_phases_forward_spec templates spec.color_hex spec.phase_specs
            (c + 1) sd2 phases2 c3 hfwd
        refine ⟨?_, ?_, spec, List.mem_cons_self _ _, by omega, ?_⟩
        · intro hne
          have h0 : 0 < phases.length := List.length_pos.mpr hne
          have h02 : 0 < phases2.length := by omega
          have hne2 : phases2 ≠ [] := by
            intro hcon
            rw [hcon] at h02
            cases h02
          have e0 : phases.head hne = phases.get ⟨0, h0⟩ :=
            (List.head_eq_getElem_zero hne).trans
              (List.get_eq_getElem _ ⟨0, h0⟩).symm
          have e1 : phases2.head hne2 = phases2.get ⟨0, h02⟩ :=
            (List.head_eq_getElem_zero hne2).trans
              (List.get_eq_getElem _ ⟨0, h02⟩).symm
          rw [e0, (hfields 0 h0 h02).2.1, ← e1, hfhead hne2]
        · intro i hi
          have hi2 : i + 1 < phases2.length := by omega
          have e1 := (hfields (i + 1) hi hi2).2.1
          have e2 := (hfields i (Nat.lt_of_succ_lt hi) (Nat.lt_of_succ_lt hi2)).2.1
          have e3 := (hfields i (Nat.lt_of_succ_lt hi) (Nat.lt_of_succ_lt hi2)).2.2
          rw [e1, e2, e3]
          exact hfchain i hi2
        · intro i hi hi2
          have hip : i < phases2.length := by omega
          rw [(hfields i hi hip).2.2]
          exact hfdur i hip hi2
      · obtain ⟨ha, hb, spec2, hspec2, hc2⟩ := ih c3 rs2 c2 hrest r hr2
        exact ⟨ha, hb, spec2, List.mem_cons_of_mem _ hspec2, hc2⟩

/-- Witness for C6: in the rebuilt demo recipe the first phase starts at the
recipe start date, the second starts when the first ends, and the inherited
template duration resolves to four weeks. -/
theorem phases_strictly_serial_witness :
    (1577923200 : Int) = 1577836800 + 86400 ∧
    ((⟨1, "Pale Ale", "#ff0000", chainPhases, 1577836800⟩ : Recipe).phases.get
        ⟨1, by decide⟩).start_date = 1577923200 := by
  have h := phases_strictly_serial [demoTemplate] demoTimeline [chainSpec] 0
      [⟨1, "Pale Ale", "#ff0000", chainPhases, 1577836800⟩] 4 (by rfl)
      ⟨1, "Pale Ale", "#ff0000", chainPhases, 1577836800⟩ (by simp)
  have h2 := h.2.1 0 (by decide)
  exact ⟨by norm_num, by decide⟩

theorem phases_id_list {templates : List ProductionPhaseTemplate}
    {spec : RecipeSpec} {c : Nat} {ps : List PhaseInstance} {c2 : Nat}
    (h : rebuild_phases_from_specs templates spec c = .ok (ps, c2)) :
    ps.map (fun p => p.id) = List.range' (c + 1) ps.length ∧
    c2 = c + ps.length := by
  obtain ⟨sd, phases, hsd, hfwd, hps⟩ := rebuild_phases_ok h
  obtain ⟨hdeps, hpos⟩ := phases_of_rebuild_have_empty_deps hfwd
  obtain ⟨hblen, hfields⟩ := attach_bridge_fields phases ps hps hdeps hpos
  obtain ⟨hflen, hc2, hprops, -, -, -⟩ :=
    build_phases_forward_spec templates spec.color_hex spec.phase_specs c sd
      phases c2 hfwd
  constructor
  · apply List.ext_get
    · simp
    · intro n h1 h2
      have hn : n < ps.length := by simpa using h1
      have hn2 : n < phases.length := by omega
      rw [List.get_eq_getElem, List.get_eq_getElem, List.getElem_map,
        List.getElem_range']
      show (ps.get ⟨n, hn⟩).id = c + 1 + 1 * n
      rw [(hfields n hn hn2).1, (hprops n hn2).2]
      omega
  · omega

theorem build_recipes_ids (templates : List ProductionPhaseTemplate)
    (timeline : ProductionTimeline) :
    ∀ (specs : List RecipeSpec) (c : Nat) (rs : List Recipe) (c2 : Nat),
      build_recipes templates timeline specs c = .ok (rs, c2) →
      ids_of_recipes rs = List.range' (c + 1) (ids_of_recipes rs).length ∧
      c2 = c + (ids_of_recipes rs).length := by
  intro specs
  induction specs with
  | nil =>
      intro c rs c2 h
      simp only [build_recipes, Except.ok.injEq, Prod.mk.injEq] at h
      rw [← h.1, ← h.2]
      exact ⟨rfl, rfl⟩
  | cons spec rest ih =>
      intro c rs c2 h
      obtain ⟨sd, phases, c3, rs2, hsd, hreb, hrest, hrs⟩ := build_recipes_cons_ok h
      subst hrs
      obtain ⟨hmap, hc3⟩ := phases_id_list hreb
      obtain ⟨ih1, ih2⟩ := ih c3 rs2 c2 hrest
      have hfull : ids_of_recipes (⟨c + 1, spec.name, spec.color_hex, phases, sd⟩ :: rs2) =
          List.range' (c + 1)
            ((ids_of_recipes rs2).length + (phases.length + 1)) := by
        have hids : ids_of_recipes
            (⟨c + 1, spec.name, spec.color_hex, phases, sd⟩ :: rs2) =
            ((c + 1) :: phases.map (fun p => p.id)) ++ ids_of_recipes rs2 := by
          simp [ids_of_recipes, Recipe.id_list]
        rw [hids, hmap, ih1]
        have hcons : (c + 1) :: List.range' (c + 1 + 1) phases.length =
            List.range' (c + 1) (phases.length + 1) :=
          (List.range'_succ (c + 1) phases.length 1).symm
        rw [hcons]
        have hshift : c3 + 1 = (c + 1) + 1 * (phases.length + 1) := by omega
        rw [hshift]
        rw [List.range'_append]
        simp [List.length_range']
      constructor
      · rw [hfull, List.length_range']
      · rw [hfull, List.length_range']
        omega

/-- C7: all recipe and phase ids of one load come from a single monotonically
increasing counter starting at 1: flattened in construction order (each
recipe's id followed by its phases' ids in spec order), the ids are exactly
the consecutive run 1, 2, ..., N, and the final counter value is N. -/
theorem id_assignment (templates : List ProductionPhaseTemplate)
    (timeline : ProductionTimeline) (specs : List RecipeSpec)
    (rs : List Recipe) (c2 : Nat)
    (h : build_recipes templates timeline specs 0 = .ok (rs, c2)) :
    ids_of_recipes rs = List.range' 1 (ids_of_recipes rs).length ∧
    c2 = (ids_of_recipes rs).length := by
  obtain ⟨h1, h2⟩ := build_recipes_ids templates timeline specs 0 rs c2 h
  exact ⟨h1, by omega⟩

/-- Witness for C7: the demo load yields the id sequence `[1, 2, 3, 4]`, the
recipe's id preceding its phases' ids. -/
theorem id_assignment_witness :
    ids_of_recipes [⟨1, "Pale Ale", "#ff0000", chainPhases, 1577836800⟩] =
      List.range' 1 4 :=
  (id_assignment [demoTemplate] demoTimeline [chainSpec]
      [⟨1, "Pale Ale", "#ff0000", chainPhases, 1577836800⟩] 4 (by rfl)).1

theorem except_ok_bind {α β : Type _} (a : α) (f : α → Except Unit β) :
    ((Except.ok a : Except Unit α) >>= f) = f a := rfl

theorem resolved_duration_error_of_missing
    {templates : List ProductionPhaseTemplate} {spec : PhaseInstanceSpec}
    (hdur : spec.duration = DurationResult.noResult)
    (htempl : get_phase_by_id templates spec.template = none) :
    resolved_duration templates spec = .error () := by
  have e1 : spec.duration.toExceptOpt = Except.ok none := by
    rw [hdur]
    rfl
  simp only [resolved_duration, e1, except_ok_bind, lookup_default_duration,
    htempl, except_error_bind]

theorem resolve_description_error_of_missing
    {templates : List ProductionPhaseTemplate} {spec : PhaseInstanceSpec}
    (hdesc : spec.description.isEmpty = true)
    (htempl : get_phase_by_id templates spec.template = none) :
    resolve_description templates spec = .error () := by
  simp only [resolve_description, hdesc, htempl]

theorem build_phases_forward_error (templates : List ProductionPhaseTemplate)
    (color : String) :
    ∀ (specs : List PhaseInstanceSpec) (c : Nat) (sd : Int),
      (∃ p ∈ specs, get_phase_by_id templates p.template = none ∧
        (p.duration = DurationResult.noResult ∨ p.description.isEmpty = true)) →
      build_phases_forward templates color specs c sd = .error () := by
  intro specs
  induction specs with
  | nil =>
      intro c sd hex
      rcases hex with ⟨p, hmem, -⟩
      cases hmem
  | cons spec rest ih =>
      intro c sd hex
      rcases hres : build_phases_forward templates color (spec :: rest) c sd
        with e | pc
      · cases e
        rfl
      · exfalso
        obtain ⟨phases, c2⟩ := pc
        obtain ⟨d, desc, ps2, hd, hdesc2, hrest, -⟩ :=
          build_phases_forward_cons_ok hres
        rcases hex with ⟨p, hmem, htempl, hneed⟩
        rcases List.mem_cons.mp hmem with rfl | hmem2
        · rcases hneed with hdur | hdesc
          · rw [resolved_duration_error_of_missing hdur htempl] at hd
            exact Except.noConfusion hd
          · rw [resolve_description_error_of_missing hdesc htempl] at hdesc2
            exact Except.noConfusion hdesc2
        · rw [ih (c + 1) (sd + d) ⟨p, hmem2, htempl, hneed⟩] at hrest
          exact Except.noConfusion hrest

/-- C1 counterexample: a phase spec referencing an unknown template id, but
carrying a parseable explicit duration and a non-empty description, builds
successfully — the template is never consulted and construction of the
recipe's phases is not aborted. -/
theorem unknown_template_not_always_fatal :
    get_phase_by_id [] "nope" = none ∧
    rebuild_phases_from_specs [] unknownTemplateSpec 1 =
      .ok ([⟨2, "Boil", "#000000", 432000, [], 1577836800⟩], 2) :=
  ⟨rfl, rfl⟩

/-- C1 (amended): a phase spec referencing an unknown template id aborts the
recipe's construction exactly when the template is consulted: when the
spec's duration resolves to no result or its description is empty. -/
theorem unknown_template_fatal_when_consulted
    (templates : List ProductionPhaseTemplate) (spec : RecipeSpec) (c : Nat)
    (hex : ∃ p ∈ spec.phase_specs, get_phase_by_id templates p.template = none ∧
      (p.duration = DurationResult.noResult ∨ p.description.isEmpty = true)) :
    rebuild_phases_from_specs templates spec c = .error () := by
  rcases hres : rebuild_phases_from_specs templates spec c with e | pc
  · cases e
    rfl
  · exfalso
    obtain ⟨ps, c2⟩ := pc
    obtain ⟨sd, phases, hsd, hfwd, -⟩ := rebuild_phases_ok hres
    rw [build_phases_forward_error templates spec.color_hex spec.phase_specs
      c sd hex] at hfwd
    exact Except.noConfusion hfwd

/-- Witness for the amended C1: the demo spec with an empty description and
an unknown template id fails to build. -/
theorem unknown_template_fatal_when_consulted_witness :
    rebuild_phases_from_specs [] needyTemplateSpec 0 = .error () :=
  unknown_template_fatal_when_consulted [] needyTemplateSpec 0
    ⟨⟨"", "nope", "5d"⟩, by decide, rfl, Or.inr rfl⟩

end Chronogrog

